import Mathlib

/-!
Verification of the retrying HTTP transport (`RetryTransport` in the
`provider` package): `shouldRetry`, `cloneRequest` and `RoundTrip` are
embedded from the Go source.  The retry driver (`backoff.Retry` with an
exponential backoff, a 1-minute interval cap and 10 maximum tries) comes
from the external `cenkalti/backoff/v5` library, whose code is not part of
this repository; its loop is therefore modelled from the specification of
the retry loop (clone, execute, classify, wait, bounded attempts).
-/

namespace RetryTransport

abbrev Bytes := List Nat
abbrev Err := String

/-- Result of reading a body stream to the end (`io.ReadAll`). -/
inductive ReadResult where
  | ok (b : Bytes)
  | err (e : Err)
deriving DecidableEq, Repr

/-- The `Body` field of a request: `nil` is `Option.none` at the `Request`
level; here we distinguish `http.NoBody`, a one-shot stream (reading it
yields the given result), and a buffered in-memory reader
(`io.NopCloser(bytes.NewReader(...))`). -/
inductive BodyReader where
  | noBody
  | stream (res : ReadResult)
  | buffered (b : Bytes)
deriving DecidableEq, Repr

/-- An `http.Request` restricted to the fields `RoundTrip` touches:
method, URL, headers, `Body` (`none` = nil) and `GetBody` (`none` = nil;
`some r` = a factory whose every call yields `r`). -/
structure Request where
  method : String
  url : String
  headers : List (String × String)
  body : Option BodyReader
  getBody : Option ReadResult
deriving DecidableEq, Repr

/-- `io.ReadAll` on a body reader. -/
def readAll : BodyReader → ReadResult
  | .noBody => .ok []
  | .stream r => r
  | .buffered b => .ok b

/-- `shouldRetry` from the source: the switch on the status code. -/
def shouldRetry (statusCode : Nat) : Bool :=
  if statusCode = 429 then true
  else if statusCode = 500 then true
  else if statusCode = 502 then true
  else if statusCode = 503 then true
  else if statusCode = 504 then true
  else false

/-- Result of `cloneRequest`: on success, the (possibly updated) original
request together with the clone handed to the underlying transport. -/
inductive CloneResult where
  | ok (orig clone : Request)
  | error (e : Err)
deriving DecidableEq, Repr

/-- `cloneRequest` from the source.  `req.Clone` copies every field; when a
body is present, a `GetBody` factory is preferred, otherwise the one-shot
body is read into memory, the ORIGINAL request's body is replaced by a
buffered reader over those bytes, and the clone gets an independent
buffered reader over the same bytes. -/
def cloneRequest (req : Request) : CloneResult :=
  match req.body with
  | none => .ok req req
  | some .noBody => .ok req req
  | some br =>
    match req.getBody with
    | some (.err e) => .error ("failed to get request body: " ++ e)
    | some (.ok b) => .ok req { req with body := some (.buffered b) }
    | none =>
      match readAll br with
      | .err e => .error ("failed to read request body: " ++ e)
      | .ok bodyBytes =>
        .ok { req with body := some (.buffered bodyBytes) }
           { req with body := some (.buffered bodyBytes) }

/-- One exchange outcome of the underlying transport: a transport-level
error or a response with a status code. -/
inductive ExchangeOutcome where
  | transportError (e : Err)
  | response (status : Nat)
deriving DecidableEq, Repr

/-- The part of a response the retry logic inspects. -/
structure Response where
  status : Nat
deriving DecidableEq, Repr

/-- Observable events of one `RoundTrip` call, in order: an underlying
exchange (with the outcome and the body bytes the clone carries), a close
of a discarded retryable response body, a backoff wait (in seconds). -/
inductive Event where
  | exchange (o : ExchangeOutcome) (sent : Option Bytes)
  | closeBody (status : Nat)
  | wait (seconds : Nat)
deriving DecidableEq, Repr

/-- Terminal outcome of a `RoundTrip` call. -/
inductive RunOutcome where
  | success (r : Response)
  | failure (e : Err)
deriving DecidableEq, Repr

/-- The body bytes a request would deliver if sent now (used to record what
each clone carries to the underlying transport). -/
def sentPayload (r : Request) : Option Bytes :=
  match r.body with
  | some (.buffered b) => some b
  | some (.stream (.ok b)) => some b
  | some (.stream (.err _)) => none
  | some .noBody => none
  | none => none

def retryErrMsg (s : Nat) : Err := "retryable HTTP status code: " ++ toString s

def cloneErrMsg (e : Err) : Err := "failed to clone request: " ++ e

/-- The error the operation closure returns for a failed exchange. -/
def errOf : ExchangeOutcome → Err
  | .transportError e => e
  | .response s => retryErrMsg s

/-- An outcome the loop classifies as transient (retryable): a
transport-level error, or a response with a retryable status code. -/
def transient : ExchangeOutcome → Bool
  | .transportError _ => true
  | .response s => shouldRetry s

/-- Exponential growth of the backoff interval, capped at the maximum. -/
def nextInterval (cur maxI : Nat) : Nat := min (cur * 2) maxI

/-- Result of a full `RoundTrip` call: terminal outcome, trace of events,
and the final state of the caller's request object. -/
structure RunResult where
  outcome : RunOutcome
  trace : List Event
  finalReq : Request
deriving DecidableEq, Repr

/-- Modelled from the spec: the loop of `backoff.Retry` with
`WithBackOff(exponential)` and `WithMaxTries`, which lives in the external
`cenkalti/backoff/v5` library, not in this repository.  Each recursion
level is one attempt of the operation closure from `RoundTrip`: clone the
request (a clone failure is permanent and aborts with no exchange),
execute the clone on the underlying transport (`transport idx` is the
outcome of the `idx`-th exchange), close the body of a retryable response,
and either return, or — when attempts remain — wait the current backoff
interval and retry with the doubled (capped) interval; exhausting the
budget returns the last attempt's error. -/
def retryLoop (transport : Nat → ExchangeOutcome) :
    Request → Nat → Nat → Nat → Nat → RunResult
  | req, _, 0, _, _ => ⟨.failure "retry budget exhausted", [], req⟩
  | req, idx, fuel + 1, interval, maxI =>
    match cloneRequest req with
    | .error e => ⟨.failure (cloneErrMsg e), [], req⟩
    | .ok req2 clone =>
      match transport idx with
      | .transportError e =>
        if fuel = 0 then
          ⟨.failure e, [.exchange (.transportError e) (sentPayload clone)], req2⟩
        else
          let rest := retryLoop transport req2 (idx + 1) fuel
            (nextInterval interval maxI) maxI
          ⟨rest.outcome,
           .exchange (.transportError e) (sentPayload clone) ::
             .wait interval :: rest.trace,
           rest.finalReq⟩
      | .response s =>
        if shouldRetry s then
          if fuel = 0 then
            ⟨.failure (retryErrMsg s),
             [.exchange (.response s) (sentPayload clone), .closeBody s],
             req2⟩
          else
            let rest := retryLoop transport req2 (idx + 1) fuel
              (nextInterval interval maxI) maxI
            ⟨rest.outcome,
             .exchange (.response s) (sentPayload clone) ::
               .closeBody s :: .wait interval :: rest.trace,
             rest.finalReq⟩
        else
          ⟨.success ⟨s⟩, [.exchange (.response s) (sentPayload clone)], req2⟩

/-- `WithMaxTries(10)` in `RoundTrip`. -/
def maxTries : Nat := 10

/-- `bExponential.InitialInterval = 2 * time.Second`, in seconds. -/
def initialIntervalSec : Nat := 2

/-- `bExponential.MaxInterval = 1 * time.Minute`, in seconds. -/
def maxIntervalSec : Nat := 60

/-- `RoundTrip`: run the retry loop over the underlying transport with the
configured backoff (initial 2s, cap 60s, 10 tries). -/
def roundTrip (transport : Nat → ExchangeOutcome) (req : Request) : RunResult :=
  retryLoop transport req 0 maxTries initialIntervalSec maxIntervalSec

def isExchange : Event → Bool
  | .exchange _ _ => true
  | _ => false

/-- Number of underlying exchanges in a trace. -/
def exchangeCount (tr : List Event) : Nat := (tr.filter isExchange).length

/-- The backoff intervals waited, in order. -/
def waitList (tr : List Event) : List Nat :=
  tr.filterMap fun e => match e with
    | .wait d => some d
    | _ => none

/-- The body payload carried by each underlying exchange, in order. -/
def payloads (tr : List Event) : List (Option Bytes) :=
  tr.filterMap fun e => match e with
    | .exchange _ p => some p
    | _ => none

/-- A request whose body can be reproduced for every attempt: no body, or
a working `GetBody` factory, or a readable one-shot/buffered body. -/
def replayable (req : Request) : Bool :=
  match req.body with
  | none => true
  | some .noBody => true
  | some br =>
    match req.getBody with
    | some (.ok _) => true
    | some (.err _) => false
    | none =>
      match readAll br with
      | .ok _ => true
      | .err _ => false

/-- A request with a replayable body whose full content is `b`. -/
def replayableWith (req : Request) (b : Bytes) : Bool :=
  match req.body with
  | none => false
  | some .noBody => false
  | some br =>
    match req.getBody with
    | some (.ok c) => decide (c = b)
    | some (.err _) => false
    | none => decide (readAll br = .ok b)

/-! ### Helper lemmas -/

/-- On a replayable request, cloning succeeds and the (possibly updated)
original request is still replayable. -/
theorem clone_of_replayable (req : Request) (h : replayable req = true) :
    ∃ req2 clone, cloneRequest req = .ok req2 clone ∧ replayable req2 = true := by
  cases hb : req.body with
  | none => exact ⟨req, req, by simp [cloneRequest, hb], h⟩
  | some br =>
    cases br with
    | noBody => exact ⟨req, req, by simp [cloneRequest, hb], h⟩
    | stream r =>
      cases hg : req.getBody with
      | none =>
        cases r with
        | ok b =>
          refine ⟨{ req with body := some (.buffered b) },
            { req with body := some (.buffered b) },
            by simp [cloneRequest, hb, hg, readAll], ?_⟩
          simp [replayable, hg, readAll]
        | err e => simp [replayable, hb, hg, readAll] at h
      | some g =>
        cases g with
        | ok b =>
          exact ⟨req, { req with body := some (.buffered b) },
            by simp [cloneRequest, hb, hg], h⟩
        | err e => simp [replayable, hb, hg] at h
    | buffered b =>
      cases hg : req.getBody with
      | none =>
        refine ⟨{ req with body := some (.buffered b) },
          { req with body := some (.buffered b) },
          by simp [cloneRequest, hb, hg, readAll], ?_⟩
        simp [replayable, hg, readAll]
      | some g =>
        cases g with
        | ok c =>
          exact ⟨req, { req with body := some (.buffered c) },
            by simp [cloneRequest, hb, hg], h⟩
        | err e => simp [replayable, hb, hg] at h

/-- On a request replayable with content `b`, cloning succeeds, the clone
carries exactly the bytes `b`, and the updated original is still
replayable with `b`. -/
theorem clone_of_replayableWith (req : Request) (b : Bytes)
    (h : replayableWith req b = true) :
    ∃ req2 clone, cloneRequest req = .ok req2 clone ∧
      sentPayload clone = some b ∧ replayableWith req2 b = true := by
  cases hb : req.body with
  | none => simp [replayableWith, hb] at h
  | some br =>
    cases br with
    | noBody => simp [replayableWith, hb] at h
    | stream r =>
      cases hg : req.getBody with
      | none =>
        have hr : readAll (.stream r) = .ok b := by
          have := h
          simp [replayableWith, hb, hg] at this
          simpa using this
        cases r with
        | ok c =>
          have hcb : c = b := by simpa [readAll] using hr
          subst hcb
          refine ⟨{ req with body := some (.buffered c) },
            { req with body := some (.buffered c) },
            by simp [cloneRequest, hb, hg, readAll], ?_, ?_⟩
          · simp [sentPayload]
          · simp [replayableWith, hg, readAll]
        | err e => simp [readAll] at hr
      | some g =>
        cases g with
        | ok c =>
          have hcb : c = b := by simpa [replayableWith, hb, hg] using h
          subst hcb
          refine ⟨req, { req with body := some (.buffered c) },
            by simp [cloneRequest, hb, hg], ?_, h⟩
          simp [sentPayload]
        | err e => simp [replayableWith, hb, hg] at h
    | buffered c =>
      cases hg : req.getBody with
      | none =>
        have hcb : c = b := by
          have := h
          simp [replayableWith, hb, hg, readAll] at this
          exact this
        subst hcb
        refine ⟨{ req with body := some (.buffered c) },
          { req with body := some (.buffered c) },
          by simp [cloneRequest, hb, hg, readAll], ?_, ?_⟩
        · simp [sentPayload]
        · simp [replayableWith, hg, readAll]
      | some g =>
        cases g with
        | ok d =>
          have hdb : d = b := by simpa [replayableWith, hb, hg] using h
          subst hdb
          refine ⟨req, { req with body := some (.buffered d) },
            by simp [cloneRequest, hb, hg], ?_, h⟩
          simp [sentPayload]
        | err e => simp [replayableWith, hb, hg] at h

@[simp] theorem exchangeCount_nil : exchangeCount [] = 0 := rfl

@[simp] theorem exchangeCount_cons (e : Event) (tr : List Event) :
    exchangeCount (e :: tr) =
      (if isExchange e then 1 else 0) + exchangeCount tr := by
  cases h : isExchange e <;>
    simp [exchangeCount, List.filter, h, Nat.add_comm]

/-- With budget left and a replayable request, at least one underlying
exchange happens. -/
theorem count_pos (t : Nat → ExchangeOutcome) (req : Request)
    (fuel idx interval maxI : Nat) (h0 : 0 < fuel)
    (hrep : replayable req = true) :
    1 ≤ exchangeCount (retryLoop t req idx fuel interval maxI).trace := by
  cases fuel with
  | zero => omega
  | succ n =>
    obtain ⟨req2, clone, hc, hrep2⟩ := clone_of_replayable req hrep
    cases ht : t idx with
    | transportError e =>
      by_cases hn : n = 0 <;>
        simp [retryLoop, hc, ht, hn, isExchange]
    | response s =>
      cases hs : shouldRetry s <;> by_cases hn : n = 0 <;>
        simp [retryLoop, hc, ht, hs, hn, isExchange]

/-- `N` transient outcomes followed by a non-retryable response, with
budget to spare, give outcome success and exactly `N + 1` exchanges. -/
theorem loop_success (t : Nat → ExchangeOutcome) (s : Nat)
    (hs : shouldRetry s = false) :
    ∀ (N : Nat) (req : Request) (idx fuel interval maxI : Nat),
      N < fuel → replayable req = true →
      (∀ k, k < N → transient (t (idx + k)) = true) →
      t (idx + N) = .response s →
      (retryLoop t req idx fuel interval maxI).outcome = .success ⟨s⟩ ∧
      exchangeCount (retryLoop t req idx fuel interval maxI).trace = N + 1 := by
  intro N
  induction N with
  | zero =>
    intro req idx fuel interval maxI hN hrep htr ht
    cases fuel with
    | zero => omega
    | succ n =>
      obtain ⟨req2, clone, hc, hrep2⟩ := clone_of_replayable req hrep
      have ht0 : t idx = .response s := by simpa using ht
      simp [retryLoop, hc, ht0, hs, isExchange]
  | succ N ih =>
    intro req idx fuel interval maxI hN hrep htr ht
    cases fuel with
    | zero => omega
    | succ n =>
      obtain ⟨req2, clone, hc, hrep2⟩ := clone_of_replayable req hrep
      have hn : n ≠ 0 := by omega
      have htr0 : transient (t idx) = true := by
        simpa using htr 0 (by omega)
      have ihx := ih req2 (idx + 1) n (nextInterval interval maxI) maxI
        (by omega) hrep2
        (fun k hk => by
          have h1 : idx + 1 + k = idx + (k + 1) := by omega
          rw [h1]; exact htr (k + 1) (by omega))
        (by
          have h2 : idx + 1 + N = idx + (N + 1) := by omega
          rw [h2]; exact ht)
      cases hto : t idx with
      | transportError e =>
        refine ⟨by simp [retryLoop, hc, hto, hn, ihx.1], ?_⟩
        simp [retryLoop, hc, hto, hn, isExchange, ihx.2]
        omega
      | response s2 =>
        have hs2 : shouldRetry s2 = true := by
          simpa [transient, hto] using htr0
        refine ⟨by simp [retryLoop, hc, hto, hs2, hn, ihx.1], ?_⟩
        simp [retryLoop, hc, hto, hs2, hn, isExchange, ihx.2]
        omega

/-- Transient outcomes on every attempt until the budget runs out give
exactly `fuel` exchanges and the error of the last attempt. -/
theorem loop_exhaust (t : Nat → ExchangeOutcome) :
    ∀ (fuel : Nat) (req : Request) (idx interval maxI : Nat),
      0 < fuel → replayable req = true →
      (∀ k, k < fuel → transient (t (idx + k)) = true) →
      (retryLoop t req idx fuel interval maxI).outcome =
        .failure (errOf (t (idx + (fuel - 1)))) ∧
      exchangeCount (retryLoop t req idx fuel interval maxI).trace = fuel := by
  intro fuel
  induction fuel with
  | zero => intro req idx interval maxI h0 _ _; omega
  | succ n ih =>
    intro req idx interval maxI h0 hrep htr
    obtain ⟨req2, clone, hc, hrep2⟩ := clone_of_replayable req hrep
    have htr0 : transient (t idx) = true := by simpa using htr 0 (by omega)
    by_cases hn : n = 0
    · subst hn
      cases hto : t idx with
      | transportError e =>
        simp [retryLoop, hc, hto, errOf, isExchange]
      | response s =>
        have hs : shouldRetry s = true := by simpa [transient, hto] using htr0
        simp [retryLoop, hc, hto, hs, errOf, isExchange]
    · have ihx := ih req2 (idx + 1) (nextInterval interval maxI) maxI
        (by omega) hrep2
        (fun k hk => by
          have h1 : idx + 1 + k = idx + (k + 1) := by omega
          rw [h1]; exact htr (k + 1) (by omega))
      have hidx : idx + 1 + (n - 1) = idx + (n + 1 - 1) := by omega
      rw [hidx] at ihx
      cases hto : t idx with
      | transportError e =>
        refine ⟨by simp [retryLoop, hc, hto, hn, ihx.1], ?_⟩
        simp [retryLoop, hc, hto, hn, isExchange, ihx.2]
        omega
      | response s =>
        have hs : shouldRetry s = true := by simpa [transient, hto] using htr0
        refine ⟨by simp [retryLoop, hc, hto, hs, hn, ihx.1], ?_⟩
        simp [retryLoop, hc, hto, hs, hn, isExchange, ihx.2]
        omega

@[simp] theorem waitList_nil : waitList [] = [] := rfl

@[simp] theorem waitList_cons_exchange (o : ExchangeOutcome) (p : Option Bytes)
    (tr : List Event) : waitList (.exchange o p :: tr) = waitList tr := by
  simp [waitList, List.filterMap_cons]

@[simp] theorem waitList_cons_close (s : Nat) (tr : List Event) :
    waitList (.closeBody s :: tr) = waitList tr := by
  simp [waitList, List.filterMap_cons]

@[simp] theorem waitList_cons_wait (d : Nat) (tr : List Event) :
    waitList (.wait d :: tr) = d :: waitList tr := by
  simp [waitList, List.filterMap_cons]

@[simp] theorem payloads_nil : payloads [] = [] := rfl

@[simp] theorem payloads_cons_exchange (o : ExchangeOutcome) (p : Option Bytes)
    (tr : List Event) : payloads (.exchange o p :: tr) = p :: payloads tr := by
  simp [payloads, List.filterMap_cons]

@[simp] theorem payloads_cons_close (s : Nat) (tr : List Event) :
    payloads (.closeBody s :: tr) = payloads tr := by
  simp [payloads, List.filterMap_cons]

@[simp] theorem payloads_cons_wait (d : Nat) (tr : List Event) :
    payloads (.wait d :: tr) = payloads tr := by
  simp [payloads, List.filterMap_cons]

/-- A clone failure aborts the loop at once: no exchanges, permanent
error, request untouched. -/
theorem loop_clone_error (t : Nat → ExchangeOutcome) (req : Request)
    (e : Err) (fuel idx interval maxI : Nat) (h0 : 0 < fuel)
    (hc : cloneRequest req = .error e) :
    retryLoop t req idx fuel interval maxI =
      ⟨.failure (cloneErrMsg e), [], req⟩ := by
  cases fuel with
  | zero => omega
  | succ n => simp [retryLoop, hc]

/-- A transient first outcome with at least two attempts of budget forces
a second exchange. -/
theorem count_two (t : Nat → ExchangeOutcome) (req : Request)
    (fuel idx interval maxI : Nat) (h2 : 2 ≤ fuel)
    (hrep : replayable req = true) (htr0 : transient (t idx) = true) :
    2 ≤ exchangeCount (retryLoop t req idx fuel interval maxI).trace := by
  cases fuel with
  | zero => omega
  | succ n =>
    obtain ⟨req2, clone, hc, hrep2⟩ := clone_of_replayable req hrep
    have hn : n ≠ 0 := by omega
    have hpos := count_pos t req2 n (idx + 1) (nextInterval interval maxI)
      maxI (by omega) hrep2
    cases hto : t idx with
    | transportError e =>
      simp [retryLoop, hc, hto, hn, isExchange]
      omega
    | response s =>
      have hs : shouldRetry s = true := by simpa [transient, hto] using htr0
      simp [retryLoop, hc, hto, hs, hn, isExchange]
      omega

/-! ### The claims -/

/-- C1: for every response obtained from the underlying transport,
`RoundTrip` retries exactly when the status code is one of 429, 500, 502,
503, 504; for any other status code exactly one underlying exchange occurs
and that response is returned to the caller as-is, regardless of the
remaining attempt budget. -/
theorem c1_retry_exactly_on_retryable_status (t : Nat → ExchangeOutcome)
    (req : Request) (s : Nat) (hrep : replayable req = true)
    (ht : t 0 = .response s) :
    (∀ c, shouldRetry c = true ↔
      (c = 429 ∨ c = 500 ∨ c = 502 ∨ c = 503 ∨ c = 504)) ∧
    (shouldRetry s = false →
      (roundTrip t req).outcome = .success ⟨s⟩ ∧
      exchangeCount (roundTrip t req).trace = 1) ∧
    (shouldRetry s = true → 2 ≤ exchangeCount (roundTrip t req).trace) := by
  refine ⟨?_, ?_, ?_⟩
  · intro c
    unfold shouldRetry
    split_ifs with h1 h2 h3 h4 h5 <;> simp_all
  · intro hs
    have h := loop_success t s hs 0 req 0 maxTries initialIntervalSec
      maxIntervalSec (by decide) hrep (by intro k hk; omega) (by simpa using ht)
    simpa [roundTrip] using h
  · intro hs
    have htr0 : transient (t 0) = true := by simp [transient, ht, hs]
    have h := count_two t req maxTries 0 initialIntervalSec maxIntervalSec
      (by decide) hrep htr0
    simpa [roundTrip] using h

def reqC1 : Request := ⟨"GET", "https://api.example/a", [], none, none⟩

theorem c1_witness :
    (roundTrip (fun _ => .response 404) reqC1).outcome = .success ⟨404⟩ ∧
    exchangeCount (roundTrip (fun _ => .response 404) reqC1).trace = 1 :=
  (c1_retry_exactly_on_retryable_status (fun _ => .response 404) reqC1 404
    (by decide) rfl).2.1 (by decide)

/-- C2: for every request whose body is finite and reproducible, if the
underlying transport produces `N` transient failures followed by a
success, with `N` strictly below the attempt budget, then `RoundTrip`
performs exactly `N + 1` underlying exchanges and surfaces exactly one
response to the caller — the successful one. -/
theorem c2_n_transient_then_success (t : Nat → ExchangeOutcome)
    (req : Request) (N s : Nat) (hN : N < maxTries)
    (hrep : replayable req = true)
    (htr : ∀ k, k < N → transient (t k) = true)
    (ht : t N = .response s) (hs : shouldRetry s = false) :
    (roundTrip t req).outcome = .success ⟨s⟩ ∧
    exchangeCount (roundTrip t req).trace = N + 1 := by
  have h := loop_success t s hs N req 0 maxTries initialIntervalSec
    maxIntervalSec hN hrep
    (fun k hk => by simpa using htr k hk) (by simpa using ht)
  simpa [roundTrip] using h

def reqC2 : Request := ⟨"GET", "https://api.example/b", [], none, none⟩

theorem c2_witness :
    (roundTrip (fun i => if i < 2 then .response 429 else .response 200)
        reqC2).outcome = .success ⟨200⟩ ∧
    exchangeCount (roundTrip
        (fun i => if i < 2 then .response 429 else .response 200)
        reqC2).trace = 2 + 1 :=
  c2_n_transient_then_success
    (fun i => if i < 2 then .response 429 else .response 200) reqC2 2 200
    (by decide) (by decide) (by decide) (by decide) (by decide)

/-- C3: if every attempt yields a retryable outcome until the attempt
budget is exhausted, the number of underlying exchanges equals the
configured maximum attempt count (10), and the error returned to the
caller is the one describing the last attempt's failure (for a 503
response, the string "retryable HTTP status code: 503"), not a generic
exhaustion error. -/
theorem c3_exhaustion_surfaces_last_error (t : Nat → ExchangeOutcome)
    (req : Request) (hrep : replayable req = true)
    (htr : ∀ k, k < maxTries → transient (t k) = true) :
    exchangeCount (roundTrip t req).trace = 10 ∧
    (roundTrip t req).outcome = .failure (errOf (t 9)) ∧
    errOf (.response 503) = "retryable HTTP status code: 503" := by
  have h := loop_exhaust t maxTries req 0 initialIntervalSec maxIntervalSec
    (by decide) hrep (fun k hk => by simpa using htr k hk)
  refine ⟨by simpa [roundTrip, maxTries] using h.2, ?_, by rfl⟩
  have h1 := h.1
  simpa [roundTrip, maxTries] using h1

def reqC3 : Request := ⟨"GET", "https://api.example/c", [], none, none⟩

theorem c3_witness :
    exchangeCount (roundTrip (fun _ => .response 503) reqC3).trace = 10 ∧
    (roundTrip (fun _ => .response 503) reqC3).outcome =
      .failure (errOf (.response 503)) ∧
    errOf (.response 503) = "retryable HTTP status code: 503" :=
  c3_exhaustion_surfaces_last_error (fun _ => .response 503) reqC3
    (by decide) (by decide)

/-- C4: for every request whose body cannot be reproduced for a retry
(cloning the request fails), zero underlying exchanges occur and a
permanent, non-retryable error is returned to the caller immediately on
the first attempt, with no retries. -/
theorem c4_clone_failure_is_permanent (t : Nat → ExchangeOutcome)
    (req : Request) (e : Err) (hc : cloneRequest req = .error e) :
    exchangeCount (roundTrip t req).trace = 0 ∧
    (roundTrip t req).trace = [] ∧
    (roundTrip t req).outcome = .failure (cloneErrMsg e) := by
  have h := loop_clone_error t req e maxTries 0 initialIntervalSec
    maxIntervalSec (by decide) hc
  have hr : roundTrip t req = ⟨.failure (cloneErrMsg e), [], req⟩ := by
    simpa [roundTrip] using h
  simp [hr, exchangeCount]

def reqC4 : Request :=
  ⟨"POST", "https://api.example/d", [], some (.stream (.err "one-shot body already consumed")), none⟩

theorem c4_witness :
    exchangeCount (roundTrip (fun _ => .response 200) reqC4).trace = 0 ∧
    (roundTrip (fun _ => .response 200) reqC4).trace = [] ∧
    (roundTrip (fun _ => .response 200) reqC4).outcome =
      .failure (cloneErrMsg "failed to read request body: one-shot body already consumed") :=
  c4_clone_failure_is_permanent (fun _ => .response 200) reqC4
    "failed to read request body: one-shot body already consumed" (by decide)

/-- The response slot of the terminal outcome, as seen by the caller. -/
def responseOf : RunOutcome → Option Response
  | .success r => some r
  | .failure _ => none

/-- The error slot of the terminal outcome, as seen by the caller. -/
def errorSlotOf : RunOutcome → Option Err
  | .success _ => none
  | .failure e => some e

/-- A response surfaced by the loop never has a retryable status: those
are absorbed and retried, not returned. -/
theorem loop_success_not_retryable :
    ∀ (fuel : Nat) (t : Nat → ExchangeOutcome) (req : Request)
      (idx interval maxI : Nat) (r : Response),
      (retryLoop t req idx fuel interval maxI).outcome = .success r →
      shouldRetry r.status = false := by
  intro fuel
  induction fuel with
  | zero =>
    intro t req idx interval maxI r h
    simp [retryLoop] at h
  | succ n ih =>
    intro t req idx interval maxI r h
    cases hc : cloneRequest req with
    | error e => simp [retryLoop, hc] at h
    | ok req2 clone =>
      cases hto : t idx with
      | transportError e =>
        by_cases hn : n = 0
        · simp [retryLoop, hc, hto, hn] at h
        · simp [retryLoop, hc, hto, hn] at h
          exact ih t req2 (idx + 1) (nextInterval interval maxI) maxI r h
      | response s =>
        cases hs : shouldRetry s with
        | false =>
          simp [retryLoop, hc, hto, hs] at h
          rw [← h]
          exact hs
        | true =>
          by_cases hn : n = 0
          · simp [retryLoop, hc, hto, hs, hn] at h
          · simp [retryLoop, hc, hto, hs, hn] at h
            exact ih t req2 (idx + 1) (nextInterval interval maxI) maxI r h

/-- C5: for every call to `RoundTrip`, exactly one of {a response is
returned to the caller, a terminal error is returned to the caller}
holds — never both, never neither — and no intermediate retried response
is ever exposed to the caller (a surfaced response never has a retryable
status). -/
theorem c5_exactly_one_terminal_outcome (t : Nat → ExchangeOutcome)
    (req : Request) :
    (responseOf (roundTrip t req).outcome).isSome
      = !(errorSlotOf (roundTrip t req).outcome).isSome ∧
    ∀ r, responseOf (roundTrip t req).outcome = some r →
      shouldRetry r.status = false := by
  constructor
  · cases h : (roundTrip t req).outcome <;> simp [responseOf, errorSlotOf]
  · intro r hr
    cases h : (roundTrip t req).outcome with
    | success r2 =>
      have hr2 : r2 = r := by simpa [responseOf, h] using hr
      subst hr2
      have h2 : (retryLoop t req 0 maxTries initialIntervalSec
          maxIntervalSec).outcome = .success r2 := by
        simpa [roundTrip] using h
      exact loop_success_not_retryable maxTries t req 0 initialIntervalSec
        maxIntervalSec r2 h2
    | failure e => simp [responseOf, h] at hr

def reqC5 : Request := ⟨"GET", "https://api.example/e", [], none, none⟩

theorem c5_witness : shouldRetry 200 = false :=
  (c5_exactly_one_terminal_outcome (fun _ => .response 200) reqC5).2
    ⟨200⟩ (by decide)

/-- Along the loop, every backoff wait is between the current interval and
the cap, and the waits form a non-decreasing chain. -/
theorem waits_bounded_mono :
    ∀ (fuel : Nat) (t : Nat → ExchangeOutcome) (req : Request)
      (idx interval maxI : Nat), interval ≤ maxI →
      (∀ w ∈ waitList (retryLoop t req idx fuel interval maxI).trace,
          interval ≤ w ∧ w ≤ maxI) ∧
      List.Chain' (· ≤ ·)
        (waitList (retryLoop t req idx fuel interval maxI).trace) := by
  intro fuel
  induction fuel with
  | zero => intro t req idx i m hi; simp [retryLoop]
  | succ n ih =>
    intro t req idx i m hi
    have hle_next : i ≤ nextInterval i m := by
      simp only [nextInterval]
      omega
    have hnext_le : nextInterval i m ≤ m := by
      simp only [nextInterval]
      omega
    cases hc : cloneRequest req with
    | error e => simp [retryLoop, hc]
    | ok req2 clone =>
      have ihx := ih t req2 (idx + 1) (nextInterval i m) m hnext_le
      cases hto : t idx with
      | transportError e =>
        by_cases hn : n = 0
        · simp [retryLoop, hc, hto, hn]
        · have hshape : (retryLoop t req idx (n + 1) i m).trace =
              .exchange (.transportError e) (sentPayload clone) ::
                .wait i ::
              (retryLoop t req2 (idx + 1) n (nextInterval i m) m).trace := by
            simp [retryLoop, hc, hto, hn]
          rw [hshape]
          simp only [waitList_cons_exchange, waitList_cons_wait]
          constructor
          · intro w hw
            rcases List.mem_cons.mp hw with rfl | hw2
            · exact ⟨le_refl w, hi⟩
            · rcases ihx.1 w hw2 with ⟨ha, hb⟩
              exact ⟨le_trans hle_next ha, hb⟩
          · cases hwl : waitList
              (retryLoop t req2 (idx + 1) n (nextInterval i m) m).trace with
            | nil => simp [hwl]
            | cons w ws =>
              refine List.chain'_cons.mpr ⟨?_, ?_⟩
              · have hmem : w ∈ waitList
                    (retryLoop t req2 (idx + 1) n (nextInterval i m) m).trace := by
                  rw [hwl]; exact List.mem_cons_self w ws
                exact le_trans hle_next (ihx.1 w hmem).1
              · have h2 := ihx.2
                rw [hwl] at h2
                exact h2
      | response s =>
        cases hs : shouldRetry s with
        | false => simp [retryLoop, hc, hto, hs]
        | true =>
          by_cases hn : n = 0
          · simp [retryLoop, hc, hto, hs, hn]
          · have hshape : (retryLoop t req idx (n + 1) i m).trace =
                .exchange (.response s) (sentPayload clone) ::
                  .closeBody s :: .wait i ::
                (retryLoop t req2 (idx + 1) n (nextInterval i m) m).trace := by
              simp [retryLoop, hc, hto, hs, hn]
            rw [hshape]
            simp only [waitList_cons_exchange, waitList_cons_close,
              waitList_cons_wait]
            constructor
            · intro w hw
              rcases List.mem_cons.mp hw with rfl | hw2
              · exact ⟨le_refl w, hi⟩
              · rcases ihx.1 w hw2 with ⟨ha, hb⟩
                exact ⟨le_trans hle_next ha, hb⟩
            · cases hwl : waitList
                (retryLoop t req2 (idx + 1) n (nextInterval i m) m).trace with
              | nil => simp [hwl]
              | cons w ws =>
                refine List.chain'_cons.mpr ⟨?_, ?_⟩
                · have hmem : w ∈ waitList
                      (retryLoop t req2 (idx + 1) n (nextInterval i m) m).trace := by
                    rw [hwl]; exact List.mem_cons_self w ws
                  exact le_trans hle_next (ihx.1 w hmem).1
                · have h2 := ihx.2
                  rw [hwl] at h2
                  exact h2

/-- C6: within a single call, the sequence of backoff wait intervals
between successive retries is non-decreasing, and no wait interval ever
exceeds the configured maximum interval (1 minute = 60 seconds). -/
theorem c6_waits_monotone_and_capped (t : Nat → ExchangeOutcome)
    (req : Request) :
    List.Chain' (· ≤ ·) (waitList (roundTrip t req).trace) ∧
    ∀ w ∈ waitList (roundTrip t req).trace, w ≤ maxIntervalSec := by
  have h := waits_bounded_mono maxTries t req 0 initialIntervalSec
    maxIntervalSec (by decide)
  constructor
  · simpa [roundTrip] using h.2
  · intro w hw
    have hw2 : w ∈ waitList (retryLoop t req 0 maxTries initialIntervalSec
        maxIntervalSec).trace := by simpa [roundTrip] using hw
    exact (h.1 w hw2).2

def reqC6 : Request := ⟨"GET", "https://api.example/f", [], none, none⟩

theorem c6_witness : (2 : Nat) ≤ maxIntervalSec :=
  (c6_waits_monotone_and_capped
    (fun i => if i < 3 then .response 503 else .response 200) reqC6).2
    2 (by decide)

/-- The concrete C7 scenario: the underlying transport returns 503 three
times, then 200. -/
def c7Transport : Nat → ExchangeOutcome :=
  fun i => if i < 3 then .response 503 else .response 200

def reqC7 : Request := ⟨"GET", "https://api.example/g", [], none, none⟩

/-- C7: the backoff waits are pure exponential without jitter —
deterministic multiplicative growth from the 2-second initial interval —
so in the concrete scenario (503 returned three times, then 200) there
are four exchanges, the waits between them are exactly 2s, 4s and 8s, and
the 200 response is returned to the caller. -/
theorem c7_pure_exponential_waits :
    (roundTrip c7Transport reqC7).outcome = .success ⟨200⟩ ∧
    exchangeCount (roundTrip c7Transport reqC7).trace = 4 ∧
    waitList (roundTrip c7Transport reqC7).trace = [2, 4, 8] ∧
    (∀ k, nextInterval k maxIntervalSec = min (k * 2) maxIntervalSec) := by
  refine ⟨by decide, by decide, by decide, fun k => rfl⟩

/-- Every exchange of a run on a request replayable with content `b`
carries exactly the payload `b`. -/
theorem loop_payloads :
    ∀ (fuel : Nat) (t : Nat → ExchangeOutcome) (req : Request)
      (idx interval maxI : Nat) (b : Bytes),
      replayableWith req b = true →
      payloads (retryLoop t req idx fuel interval maxI).trace =
        List.replicate
          (exchangeCount (retryLoop t req idx fuel interval maxI).trace)
          (some b) := by
  intro fuel
  induction fuel with
  | zero => intro t req idx i m b h; simp [retryLoop, exchangeCount]
  | succ n ih =>
    intro t req idx i m b h
    obtain ⟨req2, clone, hc, hp, h2⟩ := clone_of_replayableWith req b h
    have ihx := ih t req2 (idx + 1) (nextInterval i m) m b h2
    cases hto : t idx with
    | transportError e =>
      by_cases hn : n = 0
      · simp [retryLoop, hc, hto, hn, hp, isExchange, exchangeCount,
          List.filter]
      · simp [retryLoop, hc, hto, hn, hp, isExchange, ihx,
          List.replicate_succ, Nat.one_add]
    | response s =>
      cases hs : shouldRetry s with
      | false =>
        simp [retryLoop, hc, hto, hs, hp, isExchange, exchangeCount,
          List.filter]
      | true =>
        by_cases hn : n = 0
        · simp [retryLoop, hc, hto, hs, hn, hp, isExchange, exchangeCount,
            List.filter]
        · simp [retryLoop, hc, hto, hs, hn, hp, isExchange, ihx,
            List.replicate_succ, Nat.one_add]

/-- C8: for every request whose body is a finite, re-readable byte
sequence with content `b`, every attempt sends an independent,
fully-consumable copy of the complete original body bytes to the
underlying transport — the payload list of the exchanges is uniformly
`b`, never truncated, empty or partially consumed. -/
theorem c8_every_attempt_sends_full_body (t : Nat → ExchangeOutcome)
    (req : Request) (b : Bytes) (h : replayableWith req b = true) :
    payloads (roundTrip t req).trace =
      List.replicate (exchangeCount (roundTrip t req).trace) (some b) := by
  have hl := loop_payloads maxTries t req 0 initialIntervalSec
    maxIntervalSec b h
  simpa [roundTrip] using hl

def reqC8 : Request :=
  ⟨"POST", "https://api.example/h", [("Content-Type", "application/json")],
    some (.stream (.ok [123, 125])), none⟩

theorem c8_witness :
    payloads (roundTrip
        (fun i => if i < 2 then .response 502 else .response 201)
        reqC8).trace =
      List.replicate (exchangeCount (roundTrip
        (fun i => if i < 2 then .response 502 else .response 201)
        reqC8).trace) (some [123, 125]) :=
  c8_every_attempt_sends_full_body
    (fun i => if i < 2 then .response 502 else .response 201)
    reqC8 [123, 125] (by decide)

/-- Resource discipline checker over a trace: `n` counts the bodies of
discarded retryable responses that are still open.  Issuing an exchange
and starting a backoff wait both require that no such body remains open;
an exchange yielding a retryable response opens one, a close closes it. -/
def discipline : Nat → List Event → Bool
  | _, [] => true
  | n, .exchange o _ :: rest =>
    decide (n = 0) && discipline (n + (match o with
      | .response s => if shouldRetry s then 1 else 0
      | .transportError _ => 0)) rest
  | n, .closeBody _ :: rest => discipline (n - 1) rest
  | n, .wait _ :: rest => decide (n = 0) && discipline n rest

/-- Every trace of the loop satisfies the body-close discipline. -/
theorem loop_discipline :
    ∀ (fuel : Nat) (t : Nat → ExchangeOutcome) (req : Request)
      (idx interval maxI : Nat),
      discipline 0 (retryLoop t req idx fuel interval maxI).trace = true := by
  intro fuel
  induction fuel with
  | zero => intro t req idx i m; simp [retryLoop, discipline]
  | succ n ih =>
    intro t req idx i m
    cases hc : cloneRequest req with
    | error e => simp [retryLoop, hc, discipline]
    | ok req2 clone =>
      cases hto : t idx with
      | transportError e =>
        by_cases hn : n = 0 <;>
          simp [retryLoop, hc, hto, hn, discipline, ih]
      | response s =>
        cases hs : shouldRetry s with
        | false => simp [retryLoop, hc, hto, hs, discipline]
        | true =>
          by_cases hn : n = 0 <;>
            simp [retryLoop, hc, hto, hs, hn, discipline, ih]

/-- C9: whenever a received response is classified as retryable, its body
is closed before the backoff wait begins and before the next attempt is
issued — during a backoff wait no response body from a prior failed
attempt remains open, and no new exchange starts with one open. -/
theorem c9_body_closed_before_wait (t : Nat → ExchangeOutcome)
    (req : Request) :
    discipline 0 (roundTrip t req).trace = true := by
  have h := loop_discipline maxTries t req 0 initialIntervalSec maxIntervalSec
  simpa [roundTrip] using h

/-- The caller-visible description of a request: method, URL, headers,
`GetBody`, and the CONTENT of the body (what reading it yields), which
abstracts from the identity of the reader object. -/
def frame (r : Request) :
    String × String × List (String × String) × Option ReadResult ×
      Option ReadResult :=
  (r.method, r.url, r.headers, r.getBody, r.body.map readAll)

/-- A successful clone preserves the frame of the original request: only
the body reader object may be replaced (by a buffered reader over the same
content). -/
theorem cloneRequest_frame (req req2 clone : Request)
    (h : cloneRequest req = .ok req2 clone) : frame req2 = frame req := by
  cases hb : req.body with
  | none =>
    simp [cloneRequest, hb] at h
    rw [← h.1]
  | some br =>
    cases br with
    | noBody =>
      simp [cloneRequest, hb] at h
      rw [← h.1]
    | stream r =>
      cases hg : req.getBody with
      | some g =>
        cases g with
        | ok b =>
          simp [cloneRequest, hb, hg] at h
          rw [← h.1]
        | err e => simp [cloneRequest, hb, hg] at h
      | none =>
        cases hr : readAll (BodyReader.stream r) with
        | ok bytes =>
          simp [cloneRequest, hb, hg, hr] at h
          rw [← h.1]
          simp [frame, hb, readAll]
          refine ⟨hg.symm, ?_⟩
          have hr2 : r = .ok bytes := by simpa [readAll] using hr
          exact hr2.symm
        | err e => simp [cloneRequest, hb, hg, hr] at h
    | buffered c =>
      cases hg : req.getBody with
      | some g =>
        cases g with
        | ok b =>
          simp [cloneRequest, hb, hg] at h
          rw [← h.1]
        | err e => simp [cloneRequest, hb, hg] at h
      | none =>
        simp [cloneRequest, hb, hg, readAll] at h
        rw [← h.1]
        simp [frame, hb, readAll]
        exact hg.symm

/-- The loop preserves the frame of the caller's request. -/
theorem loop_frame :
    ∀ (fuel : Nat) (t : Nat → ExchangeOutcome) (req : Request)
      (idx interval maxI : Nat),
      frame (retryLoop t req idx fuel interval maxI).finalReq = frame req := by
  intro fuel
  induction fuel with
  | zero => intro t req idx i m; simp [retryLoop]
  | succ n ih =>
    intro t req idx i m
    cases hc : cloneRequest req with
    | error e => simp [retryLoop, hc]
    | ok req2 clone =>
      have hcf := cloneRequest_frame req req2 clone hc
      cases hto : t idx with
      | transportError e =>
        by_cases hn : n = 0
        · simp [retryLoop, hc, hto, hn, hcf]
        · simp [retryLoop, hc, hto, hn]
          rw [ih t req2 (idx + 1) (nextInterval i m) m]
          exact hcf
      | response s =>
        cases hs : shouldRetry s with
        | false => simp [retryLoop, hc, hto, hs, hcf]
        | true =>
          by_cases hn : n = 0
          · simp [retryLoop, hc, hto, hs, hn, hcf]
          · simp [retryLoop, hc, hto, hs, hn]
            rw [ih t req2 (idx + 1) (nextInterval i m) m]
            exact hcf

def reqC10 : Request :=
  ⟨"POST", "https://api.example/i", [("A", "B")],
    some (.stream (.ok [7, 8])), none⟩

/-- C10 counterexample: for a request with a one-shot body and no
`GetBody` factory, `RoundTrip` does NOT leave every field of the caller's
request unchanged — the `Body` field is replaced by a buffered reader
over the body bytes, so the final request differs from the one given. -/
theorem c10_counterexample :
    (roundTrip (fun _ => .response 200) reqC10).finalReq ≠ reqC10 ∧
    (roundTrip (fun _ => .response 200) reqC10).finalReq.body =
      some (.buffered [7, 8]) ∧
    reqC10.body = some (.stream (.ok [7, 8])) := by decide

/-- C10 (amended): for every call, `RoundTrip` leaves the request's
method, URL, headers and `GetBody` unchanged, and preserves the CONTENT
of the body (what reading it yields); the body reader object itself may
be replaced by an equivalent buffered reader when a one-shot body is
buffered for replay — per-attempt modifications beyond that happen only
on cloned copies. -/
theorem c10_request_frame_preserved (t : Nat → ExchangeOutcome)
    (req : Request) :
    (roundTrip t req).finalReq.method = req.method ∧
    (roundTrip t req).finalReq.url = req.url ∧
    (roundTrip t req).finalReq.headers = req.headers ∧
    (roundTrip t req).finalReq.getBody = req.getBody ∧
    (roundTrip t req).finalReq.body.map readAll = req.body.map readAll := by
  have h := loop_frame maxTries t req 0 initialIntervalSec maxIntervalSec
  have h2 : frame (roundTrip t req).finalReq = frame req := by
    simpa [roundTrip] using h
  simp [frame, Prod.mk.injEq] at h2
  tauto

end RetryTransport
